import Mathlib

/-!
# Verification of the gem5 performance-extraction scripts

Shallow embedding of the statistics-extraction and metric-computation
pipeline of the `Performances-de-configurations-de-microprocesseurs-multicoeurs`
repository (files `CortexA7/plot_speedup_cortexA7.py`,
`CortexA7/plot_cycles_cortexA7.py`, `CortexA7/plot_ipc_max_cortexA7.py`,
`CortexA15/plot_performance_cortexA15.py`, `CortexA15/plot_ipc_cortexA15.py`).

Python floats are modelled as exact rationals, Python ints as `Nat`/`Int`,
raised exceptions as `Except` errors.  The anchored regular expressions used
by the scripts are small and concrete, so they are translated into explicit
character-list matchers; `\d`, `\s`, `\w` are modelled over their ASCII
ranges (the log files in question are ASCII).
-/

namespace Perf


/-! ## Python character classes and string helpers -/

/-- Python `\s` (ASCII range): space, tab, newline, carriage return,
vertical tab, form feed. -/
def isPySpace (c : Char) : Bool :=
  c = ' ' || c = '\t' || c = '\n' || c = '\r' || c = '\x0b' || c = '\x0c'

/-- Python `\d` (ASCII range). -/
def isDigitC (c : Char) : Bool := '0' ≤ c && c ≤ '9'

/-- Python `\w` (ASCII range), the word characters for `\b`. -/
def isWordC (c : Char) : Bool :=
  isDigitC c || ('a' ≤ c && c ≤ 'z') || ('A' ≤ c && c ≤ 'Z') || c = '_'

/-- Value of a digit string, as computed by Python `int()`. -/
def natOfDigits (ds : List Char) : ℕ :=
  ds.foldl (fun a c => 10 * a + (c.toNat - 48)) 0

/-- Python `str.strip()` on a character list. -/
def pyStripChars (l : List Char) : List Char :=
  ((l.dropWhile isPySpace).reverse.dropWhile isPySpace).reverse

/-- Python `str.strip()`. -/
def pyStrip (s : String) : String := ⟨pyStripChars s.data⟩

/-- Match a literal prefix, returning the remaining characters.
`stripLit lit s = some r` iff `s = lit ++ r`. -/
def stripLit : List Char → List Char → Option (List Char)
  | [], s => some s
  | _ :: _, [] => none
  | c :: lit, d :: s => if c = d then stripLit lit s else none

/-- Boundary `\b` at this position: end of input or a non-word character next.
(Only ever queried right after a digit, where this is exactly `\b`.) -/
def wordBoundary : List Char → Bool
  | [] => true
  | c :: _ => !isWordC c

/-- Match `\s+(\d+)\b` and return the captured integer. -/
def wsNatCapture (s : List Char) : Option ℕ :=
  let ws := s.takeWhile isPySpace
  let r1 := s.dropWhile isPySpace
  if ws.isEmpty then none else
  let ds := r1.takeWhile isDigitC
  let r2 := r1.dropWhile isDigitC
  if ds.isEmpty then none else
  if wordBoundary r2 then some (natOfDigits ds) else none

/-- Match a line of the form `<label>\s+(\d+)\b` (anchored, as with
`re.match`) and return the captured integer. -/
def matchLabeledNat (label : String) (s : String) : Option ℕ :=
  (stripLit label.data s.data).bind wsNatCapture

/-- Regex `^sim_ticks\s+(\d+)\b` -/
def matchSimTicks (s : String) : Option ℕ := matchLabeledNat "sim_ticks" s

/-- Regex `^sim_insts\s+(\d+)\b` -/
def matchSimInsts (s : String) : Option ℕ := matchLabeledNat "sim_insts" s

/-- Regex `^system\.cpu_clk_domain\.clock\s+(\d+)\b` -/
def matchCpuClock (s : String) : Option ℕ :=
  matchLabeledNat "system.cpu_clk_domain.clock" s

/-- Regex `^system\.clk_domain\.clock\s+(\d+)\b` -/
def matchSysClock (s : String) : Option ℕ :=
  matchLabeledNat "system.clk_domain.clock" s

/-- Regex `^system\.cpu(?P<cpu>\d*)\.numCycles\s+(?P<value>\d+)\b`: returns the
(possibly empty) cpu-index digit string and the captured value.  The
variants `[0-9]*` and `(?:\d+)?` used by the other scripts recognise the
same lines. -/
def matchNumCycles (s : String) : Option (List Char × ℕ) := do
  let r1 ← stripLit "system.cpu".data s.data
  let idx := r1.takeWhile isDigitC
  let r2 := r1.dropWhile isDigitC
  let r3 ← stripLit ".numCycles".data r2
  let v ← wsNatCapture r3
  pure (idx, v)

/-- Regex `^system\.cpu\d*\.ipc\s+(?P<value>\d+(?:\.\d+)?)\b`, value as an exact
rational.  The optional fractional group backtracks exactly as in `re`:
if `\b` fails after the fraction, the group is dropped and `\b` is
retried after the integer part. -/
def matchIpc (s : String) : Option ℚ := do
  let r1 ← stripLit "system.cpu".data s.data
  let r2 := r1.dropWhile isDigitC
  let r3 ← stripLit ".ipc".data r2
  let ws := r3.takeWhile isPySpace
  let r4 := r3.dropWhile isPySpace
  if ws.isEmpty then none else
  let ds := r4.takeWhile isDigitC
  let r5 := r4.dropWhile isDigitC
  if ds.isEmpty then none else
  match r5 with
  | '.' :: r6 =>
    let fs := r6.takeWhile isDigitC
    let r7 := r6.dropWhile isDigitC
    if !fs.isEmpty && wordBoundary r7 then
      some ((natOfDigits ds : ℚ) + (natOfDigits fs : ℚ) / (10 : ℚ) ^ fs.length)
    else if wordBoundary r5 then some (natOfDigits ds : ℚ) else none
  | _ => if wordBoundary r5 then some (natOfDigits ds : ℚ) else none

/-! ## Directory-name grammars -/

/-- Take a non-empty digit run, returning its value and the rest. -/
def takeDigits1 (s : List Char) : Option (ℕ × List Char) :=
  let ds := s.takeWhile isDigitC
  if ds.isEmpty then none else some (natOfDigits ds, s.dropWhile isDigitC)

/-- Regex `^w(?P<width>\d+)_t(?P<threads>\d+)$` (first Cortex-A15 pattern). -/
def matchDirWT (name : String) : Option (ℕ × ℕ) := do
  let r1 ← stripLit ['w'] name.data
  let (w, r2) ← takeDigits1 r1
  let r3 ← stripLit ['_', 't'] r2
  let (t, r4) ← takeDigits1 r3
  if r4.isEmpty then some (w, t) else none

/-- Regex `^t(?P<threads>\d+)_w(?P<width>\d+)(?:_|$)` (second Cortex-A15
pattern); returns `(width, threads)` like `parse_dir_name`. -/
def matchDirTW (name : String) : Option (ℕ × ℕ) := do
  let r1 ← stripLit ['t'] name.data
  let (t, r2) ← takeDigits1 r1
  let r3 ← stripLit ['_', 'w'] r2
  let (w, r4) ← takeDigits1 r3
  match r4 with
  | [] => some (w, t)
  | '_' :: _ => some (w, t)
  | _ => none

/-- Function `parse_dir_name` of `plot_performance_cortexA15.py`: the two patterns
are tried in order, the first match wins; result is `(width, threads)`. -/
def parse_dir_name (name : String) : Option (ℕ × ℕ) :=
  match matchDirWT name with
  | some wt => some wt
  | none => matchDirTW name

/-- Regex `^t(?P<threads>\d+)(?:_cpus(?P<cpus>\d+))?_` of
`plot_speedup_cortexA7.py`; returns `(threads, cpus?)`.  If the optional
`_cpus\d+` group matches but is not followed by `_`, `re` backtracks and
retries without the group, which is mirrored here. -/
def matchDirA7Speedup (name : String) : Option (ℕ × Option ℕ) := do
  let r1 ← stripLit ['t'] name.data
  let (t, r2) ← takeDigits1 r1
  let grp : Option ℕ := do
    let r3 ← stripLit ['_', 'c', 'p', 'u', 's'] r2
    let (n, r4) ← takeDigits1 r3
    let _ ← stripLit ['_'] r4
    pure n
  match grp with
  | some n => some (t, some n)
  | none => (stripLit ['_'] r2).map (fun _ => (t, none))

/-- Terminator `(?:_|$)`. -/
def underscoreOrEnd : List Char → Bool
  | [] => true
  | '_' :: _ => true
  | _ => false

/-- Regex `^t(?P<threads>\d+)(?:_cpus(?P<cpus>\d+))?(?:_|$)` of
`plot_cycles_cortexA7.py`, with the same backtracking behaviour. -/
def matchDirA7Cycles (name : String) : Option (ℕ × Option ℕ) := do
  let r1 ← stripLit ['t'] name.data
  let (t, r2) ← takeDigits1 r1
  let grp : Option ℕ := do
    let r3 ← stripLit ['_', 'c', 'p', 'u', 's'] r2
    let (n, r4) ← takeDigits1 r3
    if underscoreOrEnd r4 then pure n else none
  match grp with
  | some n => some (t, some n)
  | none => if underscoreOrEnd r2 then some (t, none) else none

/-- Expression `int(match.group("cpus") or match.group("threads"))` /
`int(cpus_group) if cpus_group is not None else int(...("threads"))`:
the thread-count coordinate actually used by the Cortex-A7 scanners
(digit captures are never empty strings, so `or` and `is not None`
agree). -/
def effThreads (m : ℕ × Option ℕ) : ℕ := m.2.getD m.1

/-! ## Log-file scanning (`parse_cycles`, `parse_stats`, `parse_config`) -/

/-- Extraction failures (`ValueError`s raised by the parsers; the spec
calls them `ExtractionError`). -/
inductive ExtractionError where
  /-- Message `Aucune ligne numCycles ...` -/
  | noCycles
  /-- Message `Aucune ligne IPC ...` -/
  | noIpc
  /-- Message `Aucune valeur sim_insts valide ...` -/
  | badInsts
  /-- Message `Aucun cycle valide ...` -/
  | badCycles
  /-- Message `Impossible d'extraire les cycles ...` -/
  | noTiming
deriving DecidableEq

/-- Scan state of the `parse_cycles` loops (Cortex-A15
`plot_performance`, Cortex-A7 `plot_cycles`): per-core cycle counts plus
the first-seen fallback timing signals. -/
structure CycScan where
  cycles : List ℕ
  sim_ticks : Option ℕ
  cpu_clock : Option ℕ
  sys_clock : Option ℕ
deriving DecidableEq

/-- One iteration of the `parse_cycles` loop: strip the line, skip it if
empty, then try `numCycles`, `sim_ticks`, the cpu clock and the system
clock in that order (each timing signal only while still unset). -/
def cycStep (st : CycScan) (raw : String) : CycScan :=
  let line := pyStrip raw
  if line.data = [] then st else
  match matchNumCycles line with
  | some (_, v) => { st with cycles := st.cycles ++ [v] }
  | none =>
    match st.sim_ticks, matchSimTicks line with
    | none, some v => { st with sim_ticks := some v }
    | _, _ =>
      match st.cpu_clock, matchCpuClock line with
      | none, some v => { st with cpu_clock := some v }
      | _, _ =>
        match st.sys_clock, matchSysClock line with
        | none, some v => { st with sys_clock := some v }
        | _, _ => st

def scanCycles (lines : List String) : CycScan :=
  lines.foldl cycStep ⟨[], none, none, none⟩

/-- Expression `period = cpu_clock if cpu_clock is not None else sys_clock` -/
def effPeriod (st : CycScan) : Option ℕ :=
  match st.cpu_clock with
  | some c => some c
  | none => st.sys_clock

/-- Floor of a rational, computed by flooring integer division. -/
def ratFloor (q : ℚ) : ℤ := Int.fdiv q.num (q.den : ℤ)

/-- Python `round` (banker's rounding, ties to even), as applied by
`int(round(sim_ticks / period))`. -/
def pyRound (q : ℚ) : ℤ :=
  if q - (ratFloor q : ℚ) < 1 / 2 then ratFloor q
  else if 1 / 2 < q - (ratFloor q : ℚ) then ratFloor q + 1
  else if ratFloor q % 2 = 0 then ratFloor q else ratFloor q + 1

/-- Function `parse_cycles` of `plot_performance_cortexA15.py`: max of the
per-core cycle counts, falling back to `round(sim_ticks / period)` when
no cycle line was seen and the effective period is truthy and positive. -/
def parse_cycles (lines : List String) : Except ExtractionError ℤ :=
  let st := scanCycles lines
  if st.cycles ≠ [] then .ok (st.cycles.foldl max 0 : ℕ)
  else
    match st.sim_ticks with
    | some t =>
      match effPeriod st with
      | some p =>
        if 0 < p then .ok (pyRound ((t : ℚ) / (p : ℚ))) else .error .noTiming
      | none => .error .noTiming
    | none => .error .noTiming

/-- Function `parse_cycles` of `plot_cycles_cortexA7.py`: identical scan, but also
reports which source produced the figure. -/
def parse_cyclesSrc (lines : List String) : Except ExtractionError (ℤ × String) :=
  let st := scanCycles lines
  if st.cycles ≠ [] then .ok ((st.cycles.foldl max 0 : ℕ), "max(system.cpu*.numCycles)")
  else
    match st.sim_ticks with
    | some t =>
      match effPeriod st with
      | some p =>
        if 0 < p then .ok (pyRound ((t : ℚ) / (p : ℚ)), "sim_ticks / clock_period")
        else .error .noTiming
      | none => .error .noTiming
    | none => .error .noTiming

/-- Function `parse_cycles` of `plot_speedup_cortexA7.py`: cycle lines only, no
fallback, `max(cycles)` of a non-empty list. -/
def parse_cyclesSpeedup (lines : List String) : Except ExtractionError ℕ :=
  let cs := lines.foldl
    (fun acc raw =>
      match matchNumCycles (pyStrip raw) with
      | some (_, v) => acc ++ [v]
      | none => acc) []
  if cs = [] then .error .noCycles else .ok (cs.foldl max 0)

/-- Scan state of `parse_stats` in `plot_ipc_cortexA15.py`. -/
structure StatScan where
  cycles : List ℕ
  ipc_vals : List ℚ
  sim_insts : ℕ
deriving DecidableEq

/-- One iteration of the `parse_stats` loop: cycle lines accumulate, IPC
lines accumulate, and each `sim_insts` line overwrites the previous
value. -/
def statStep (st : StatScan) (raw : String) : StatScan :=
  let text := pyStrip raw
  match matchNumCycles text with
  | some (_, v) => { st with cycles := st.cycles ++ [v] }
  | none =>
    match matchIpc text with
    | some v => { st with ipc_vals := st.ipc_vals ++ [v] }
    | none =>
      match matchSimInsts text with
      | some v => { st with sim_insts := v }
      | none => st

def scanStats (lines : List String) : StatScan :=
  lines.foldl statStep ⟨[], [], 0⟩

/-- Function `parse_stats` of `plot_ipc_cortexA15.py`: returns
`(ipc_max, ipc_global, sim_insts, max_cycles)`. -/
def parse_stats (lines : List String) :
    Except ExtractionError (ℚ × ℚ × ℕ × ℕ) :=
  let st := scanStats lines
  if st.cycles = [] then .error .noCycles
  else if st.ipc_vals = [] then .error .noIpc
  else if st.sim_insts ≤ 0 then .error .badInsts
  else
    let max_cycles := st.cycles.foldl max 0
    if max_cycles ≤ 0 then .error .badCycles
    else .ok (st.ipc_vals.foldl max 0, (st.sim_insts : ℚ) / (max_cycles : ℚ),
      st.sim_insts, max_cycles)

/-- Insert-or-overwrite for the `cycles` dict of `parse_config`
(`plot_ipc_max_cortexA7.py`), keyed by the captured cpu-index string;
Python dicts keep insertion order. -/
def upsert (k : List Char) (v : ℕ) : List (List Char × ℕ) → List (List Char × ℕ)
  | [] => [(k, v)]
  | (k', v') :: rest =>
    if k' = k then (k', v) :: rest else (k', v') :: upsert k v rest

/-- Scan state of `parse_config` in `plot_ipc_max_cortexA7.py`. -/
structure ConfScan where
  cycles : List (List Char × ℕ)
  sim_insts : ℕ
deriving DecidableEq

def confStep (st : ConfScan) (raw : String) : ConfScan :=
  let text := pyStrip raw
  match matchNumCycles text with
  | some (idx, v) => { st with cycles := upsert idx v st.cycles }
  | none =>
    match matchSimInsts text with
    | some v => { st with sim_insts := v }
    | none => st

def scanConfig (lines : List String) : ConfScan :=
  lines.foldl confStep ⟨[], 0⟩

/-! ## The directory sweeps (`collect_points`)

An immediate child of the input root is modelled by its name, whether it
is a directory, and the contents (if present) of its `STATUS.txt` and
`stats.txt` files.  `sorted(input_root.iterdir(), key=lambda p: p.name)`
and `points.sort(...)` are Python's stable sort, modelled by
`List.insertionSort` (also stable) over the same total order; path
prefixes of the input root are elided from warning texts, which
otherwise are reproduced verbatim. -/

structure FsEntry where
  name : String
  isDir : Bool
  status : Option String
  stats : Option String
deriving DecidableEq

/-- Split a character list at every newline (the line structure seen by
Python file iteration; terminators are irrelevant downstream because
every consumer strips them). -/
def linesOf : List Char → List (List Char)
  | [] => [[]]
  | c :: rest =>
    match linesOf rest with
    | [] => [[]]
    | hd :: tl => if c = '\n' then [] :: hd :: tl else (c :: hd) :: tl

/-- Python file iteration of a text file: the lines. -/
def fileLines (content : String) : List String :=
  (linesOf content.data).map (fun l => ⟨l⟩)

/-- Lexicographic comparison of character lists by code point — the
comparison Python applies to directory-name strings. -/
def charsLe : List Char → List Char → Bool
  | [], _ => true
  | _ :: _, [] => false
  | a :: as, b :: bs =>
    if a.toNat < b.toNat then true
    else if b.toNat < a.toNat then false
    else charsLe as bs

/-- Sort order of `sorted(..., key=lambda p: p.name)`. -/
def nameLe (a b : FsEntry) : Prop := charsLe a.name.data b.name.data = true

instance : DecidableRel nameLe := fun a b =>
  inferInstanceAs (Decidable (charsLe a.name.data b.name.data = true))

instance : IsTotal FsEntry nameLe where
  total := by
    intro a b
    unfold nameLe
    generalize a.name.data = as
    generalize b.name.data = bs
    induction as generalizing bs with
    | nil => left; rfl
    | cons x xs ih =>
      cases bs with
      | nil => right; rfl
      | cons y ys =>
        simp only [charsLe]
        rcases Nat.lt_trichotomy x.toNat y.toNat with h | h | h
        · left; simp [h]
        · have h1 : ¬ x.toNat < y.toNat := by omega
          have h2 : ¬ y.toNat < x.toNat := by omega
          simp only [if_neg h1, if_neg h2]
          exact ih ys
        · right; simp [h]

instance : IsTrans FsEntry nameLe where
  trans := by
    intro a b c
    unfold nameLe
    generalize a.name.data = as
    generalize b.name.data = bs
    generalize c.name.data = cs
    induction as generalizing bs cs with
    | nil => intro _ _; rfl
    | cons x xs ih =>
      intro h1 h2
      cases bs with
      | nil => simp [charsLe] at h1
      | cons y ys =>
        cases cs with
        | nil => simp [charsLe] at h2
        | cons z zs =>
          simp only [charsLe] at h1 h2 ⊢
          by_cases hab : x.toNat < y.toNat
          · by_cases hbc : y.toNat < z.toNat
            · simp [hab.trans hbc]
            · by_cases hcb : z.toNat < y.toNat
              · rw [if_neg hbc, if_pos hcb] at h2; cases h2
              · have h : x.toNat < z.toNat := by omega
                simp [h]
          · by_cases hba : y.toNat < x.toNat
            · rw [if_neg hab, if_pos hba] at h1; cases h1
            · rw [if_neg hab, if_neg hba] at h1
              by_cases hbc : y.toNat < z.toNat
              · have h : x.toNat < z.toNat := by omega
                simp [h]
              · by_cases hcb : z.toNat < y.toNat
                · rw [if_neg hbc, if_pos hcb] at h2; cases h2
                · rw [if_neg hbc, if_neg hcb] at h2
                  have h3 : ¬ x.toNat < z.toNat := by omega
                  have h4 : ¬ z.toNat < x.toNat := by omega
                  rw [if_neg h3, if_neg h4]
                  exact ih ys zs h1 h2

/-- Python `str.startswith`, on the character lists (argument order:
candidate prefix first). -/
def startsWithChars : List Char → List Char → Bool
  | [], _ => true
  | _ :: _, [] => false
  | a :: as, b :: bs => a = b && startsWithChars as bs

/-- Expression `status.startswith("OK")`. -/
def pyStartsWith (s pre : String) : Bool := startsWithChars pre.data s.data

/-- A point of `plot_performance_cortexA15.py` before metric
computation. -/
structure PointA15 where
  width : ℕ
  threads : ℕ
  cycles : ℤ
  folder : String
deriving DecidableEq

/-- Sort order of `points.sort(key=lambda p: (p.width, p.threads))`. -/
def wtLe (p q : PointA15) : Prop :=
  p.width < q.width ∨ (p.width = q.width ∧ p.threads ≤ q.threads)

instance : DecidableRel wtLe := fun _ _ => inferInstanceAs (Decidable (_ ∨ _))
instance : IsTotal PointA15 wtLe := ⟨by
  intro a b
  rcases lt_trichotomy a.width b.width with h | h | h
  · exact Or.inl (Or.inl h)
  · rcases le_total a.threads b.threads with h' | h'
    · exact Or.inl (Or.inr ⟨h, h'⟩)
    · exact Or.inr (Or.inr ⟨h.symm, h'⟩)
  · exact Or.inr (Or.inl h)⟩
instance : IsTrans PointA15 wtLe := ⟨by
  intro a b c h1 h2
  rcases h1 with h1 | ⟨e1, t1⟩
  · rcases h2 with h2 | ⟨e2, _⟩
    · exact Or.inl (h1.trans h2)
    · exact Or.inl (e2 ▸ h1)
  · rcases h2 with h2 | ⟨e2, t2⟩
    · exact Or.inl (e1 ▸ h2)
    · exact Or.inr ⟨e1.trans e2, t1.trans t2⟩⟩

/-- Filter `max_threads is not None and threads > max_threads` -/
def exceedsMax (mt : Option ℕ) (t : ℕ) : Bool :=
  match mt with
  | some m => t > m
  | none => false

/-- The `STATUS.txt` guard of `collect_points` passes (file absent, or
stripped content starts with `OK`). -/
def statusOk (e : FsEntry) : Prop :=
  match e.status with
  | none => True
  | some s => pyStartsWith (pyStrip s) "OK" = true

instance (e : FsEntry) : Decidable (statusOk e) := by
  unfold statusOk; exact match e.status with
  | none => inferInstanceAs (Decidable True)
  | some _ => inferInstanceAs (Decidable (_ = true))

/-- The `stats.txt` part of the `collect_points` loop body of
`plot_performance_cortexA15.py`: absence and zero-byte checks, then
`parse_cycles` with its `ValueError` downgraded to a warning. -/
def statsResultA15 (e : FsEntry) (w t : ℕ) : List PointA15 × List String :=
  match e.stats with
  | none => ([], [e.name ++ ": stats.txt absent"])
  | some content =>
    if content = "" then ([], [e.name ++ ": stats.txt vide"])
    else
      match parse_cycles (fileLines content) with
      | .ok c => ([⟨w, t, c, e.name⟩], [])
      | .error _ =>
        ([], ["Impossible d'extraire les cycles depuis " ++ e.name ++ "/stats.txt"])

/-- Contribution of one directory entry to the result of
`collect_points` in `plot_performance_cortexA15.py` (the loop body:
each iteration appends at most one point and at most one warning). -/
def entryResultA15 (mt : Option ℕ) (e : FsEntry) : List PointA15 × List String :=
  if e.isDir = false then ([], []) else
  match parse_dir_name e.name with
  | none => ([], [])
  | some (w, t) =>
    if exceedsMax mt t then ([], []) else
    match e.status with
    | some s =>
      if pyStartsWith (pyStrip s) "OK" then statsResultA15 e w t
      else ([], [e.name ++ ": ignore (" ++ pyStrip s ++ ")"])
    | none => statsResultA15 e w t

def stepA15 (mt : Option ℕ) (acc : List PointA15 × List String) (e : FsEntry) :
    List PointA15 × List String :=
  (acc.1 ++ (entryResultA15 mt e).1, acc.2 ++ (entryResultA15 mt e).2)

/-- Function `collect_points` of `plot_performance_cortexA15.py`. -/
def collect_pointsA15 (root : List FsEntry) (mt : Option ℕ) :
    List PointA15 × List String :=
  let folded := (root.insertionSort nameLe).foldl (stepA15 mt) ([], [])
  (folded.1.insertionSort wtLe, folded.2)

/-- A point of `plot_speedup_cortexA7.py` before metric computation. -/
structure PointA7 where
  threads : ℕ
  cycles : ℕ
  folder : String
deriving DecidableEq

/-- Sort order of `points.sort(key=lambda p: p.threads)`. -/
def thrLe (p q : PointA7) : Prop := p.threads ≤ q.threads

instance : DecidableRel thrLe := fun a b => inferInstanceAs (Decidable (a.threads ≤ b.threads))
instance : IsTotal PointA7 thrLe := ⟨fun a b => Nat.le_total a.threads b.threads⟩
instance : IsTrans PointA7 thrLe := ⟨fun _ _ _ h1 h2 => Nat.le_trans h1 h2⟩

/-- Contribution of one directory entry to the result of
`collect_points` in `plot_speedup_cortexA7.py` (no STATUS guard, no
max-threads filter; thread coordinate `int(cpus or threads)`). -/
def entryResultA7 (e : FsEntry) : List PointA7 × List String :=
  if e.isDir = false then ([], []) else
  match matchDirA7Speedup e.name with
  | none => ([], [])
  | some m =>
    match e.stats with
    | none => ([], [e.name ++ ": stats.txt absent"])
    | some content =>
      if content = "" then ([], [e.name ++ ": stats.txt vide"])
      else
        match parse_cyclesSpeedup (fileLines content) with
        | .ok c => ([⟨effThreads m, c, e.name⟩], [])
        | .error _ =>
          ([], ["Aucune ligne numCycles trouvee dans " ++ e.name ++ "/stats.txt"])

def stepA7 (acc : List PointA7 × List String) (e : FsEntry) :
    List PointA7 × List String :=
  (acc.1 ++ (entryResultA7 e).1, acc.2 ++ (entryResultA7 e).2)

/-- Function `collect_points` of `plot_speedup_cortexA7.py`. -/
def collect_pointsA7 (root : List FsEntry) : List PointA7 × List String :=
  let folded := (root.insertionSort nameLe).foldl stepA7 ([], [])
  (folded.1.insertionSort thrLe, folded.2)

/-! ## `compute_metrics` of `plot_speedup_cortexA7.py` -/

/-- Errors of the metric stage: `ZeroDivisionError` from a division by
zero and `IndexError` from `points[0]` on an empty list (the spec groups
these under `MetricError`). -/
inductive MetricError where
  | zeroDivision
  | indexError
deriving DecidableEq

/-- Python division: raises `ZeroDivisionError` on a zero denominator. -/
def pydiv (a b : ℚ) : Except MetricError ℚ :=
  if b = 0 then .error .zeroDivision else .ok (a / b)

/-- A point after `compute_metrics` filled in its derived fields. -/
structure MetricPoint where
  threads : ℕ
  cycles : ℕ
  folder : String
  speedup : ℚ
  efficiency : ℚ
  local_speedup : Option ℚ
  local_efficiency : Option ℚ
  marginal_efficiency : Option ℚ
deriving DecidableEq

/-- Expression `next((p for p in points if p.threads == 1), points[0])`, for a list
with head `hd`. -/
def baselinePoint (ps : List PointA7) (hd : PointA7) : PointA7 :=
  (ps.find? (fun p => p.threads == 1)).getD hd

/-- Iteration `i = 0` of the `compute_metrics` loop: speedup and
efficiency only, adjacency metrics left at `None`. -/
def firstMetric (b : ℚ) (p : PointA7) : Except MetricError MetricPoint := do
  let s ← pydiv b (p.cycles : ℚ)
  let e ← pydiv s (p.threads : ℚ)
  .ok ⟨p.threads, p.cycles, p.folder, s, e, none, none, none⟩

/-- Iterations `i > 0`: additionally `local_speedup`,
`local_efficiency` and `marginal_efficiency` against the previous point,
with every division raising on a zero denominator. -/
def nextMetric (b : ℚ) (prev : MetricPoint) (p : PointA7) :
    Except MetricError MetricPoint := do
  let s ← pydiv b (p.cycles : ℚ)
  let e ← pydiv s (p.threads : ℚ)
  let ls ← pydiv (prev.cycles : ℚ) (p.cycles : ℚ)
  let ratio ← pydiv (p.threads : ℚ) (prev.threads : ℚ)
  let leff ← pydiv ls ratio
  let marg ← pydiv (s - prev.speedup) ((p.threads : ℚ) - (prev.threads : ℚ))
  .ok ⟨p.threads, p.cycles, p.folder, s, e, some ls, some leff, some marg⟩

def metricLoop (b : ℚ) (prev : MetricPoint) :
    List PointA7 → Except MetricError (List MetricPoint)
  | [] => .ok []
  | p :: rest => do
    let o ← nextMetric b prev p
    let os ← metricLoop b o rest
    .ok (o :: os)

/-- Function `compute_metrics` of `plot_speedup_cortexA7.py`.  `points[0]` on an
empty list raises `IndexError`; `baseline_cycles` is fixed before the
loop. -/
def compute_metrics : List PointA7 → Except MetricError (List MetricPoint)
  | [] => .error .indexError
  | p :: rest => do
    let b := ((baselinePoint (p :: rest) p).cycles : ℚ)
    let o ← firstMetric b p
    let os ← metricLoop b o rest
    .ok (o :: os)

deriving instance DecidableEq for Except

/-- Log file of the fallback example: `sim_ticks=500000`, core-local
clock period `1000`, no direct cycle-count line. -/
def fallbackLines : List String :=
  ["sim_ticks 500000", "system.cpu_clk_domain.clock 1000"]

/-- Root with two valid configuration directories whose lexicographic
name order (`t16_a` before `t2_b`) differs from their thread order. -/
def rootC7 : List FsEntry :=
  [⟨"t16_a", true, none, some "system.cpu0.numCycles 7"⟩,
   ⟨"t2_b", true, none, some "system.cpu0.numCycles 9"⟩]

/-- Root whose single directory has a status marker ` OK` (leading
blank): the literal content does not begin with `OK`, yet the code
strips it first and keeps the directory. -/
def rootC8 : List FsEntry :=
  [⟨"w2_t1", true, some " OK", some "system.cpu0.numCycles 100"⟩]

/-- Root whose single directory has marker content `FAILED: oom` plus a
trailing newline. -/
def rootC8b : List FsEntry :=
  [⟨"w2_t1", true, some "FAILED: oom\n", some "system.cpu0.numCycles 100"⟩]

/-- Containment of a character list at any position. -/
def containsChars (sub : List Char) : List Char → Bool
  | [] => startsWithChars sub []
  | c :: rest => startsWithChars sub (c :: rest) || containsChars sub rest

/-- String containment (is `sub` a contiguous substring of `hay`?). -/
def strContains (hay sub : String) : Bool := containsChars sub.data hay.data

/-- Status-marker entry with non-`OK` stripped content. -/
def entC8bad : FsEntry := ⟨"w2_t1", true, some "FAILED: oom\n", some "system.cpu0.numCycles 100"⟩

/-- Status-marker entry whose stripped content begins with `OK`. -/
def entC8ok : FsEntry := ⟨"w2_t1", true, some " OK done", some "system.cpu0.numCycles 100"⟩

/-- Healthy companion entry. -/
def entGoodA15 : FsEntry := ⟨"w2_t2", true, none, some "system.cpu0.numCycles 60"⟩

/-- Zero-byte entries for the C9 witness. -/
def entC9a15 : FsEntry := ⟨"w2_t1", true, none, some ""⟩

def entC9a7 : FsEntry := ⟨"t2_x", true, none, some ""⟩

def entGoodA7 : FsEntry := ⟨"t4_y", true, none, some "system.cpu0.numCycles 5"⟩

/-! ## Failure conditions of the parsers -/

/-- Kernel-reducible success test for `Except`. -/
def isOkE {ε α : Type} : Except ε α → Bool
  | .ok _ => true
  | .error _ => false

/-- The fallback timing data suffices: a `sim_ticks` value is present
and the effective clock period is present and positive. -/
def fallbackUsable (st : CycScan) : Prop :=
  ∃ tk, st.sim_ticks = some tk ∧ ∃ p, effPeriod st = some p ∧ 0 < p

/-- Log file with a cycle line and a positive instruction count but no
IPC line. -/
def statsLinesNoIpc : List String := ["system.cpu0.numCycles 100", "sim_insts 50"]

/-- Log file whose only cycle line carries the value `0`. -/
def cyclesLinesZero : List String := ["system.cpu0.numCycles 0"]

/-- Log file on which `parse_stats` succeeds. -/
def statsLinesOk : List String :=
  ["system.cpu0.numCycles 100", "system.cpu0.ipc 1", "sim_insts 50"]

/-- The adjacency-relative fields of `b` are exactly the code's formulas
against the previous point `a` of the series. -/
def adjOk (a b : MetricPoint) : Prop :=
  b.local_speedup = some ((a.cycles : ℚ) / (b.cycles : ℚ)) ∧
  b.local_efficiency =
    some (((a.cycles : ℚ) / (b.cycles : ℚ)) / ((b.threads : ℚ) / (a.threads : ℚ))) ∧
  b.marginal_efficiency =
    some ((b.speedup - a.speedup) / ((b.threads : ℚ) - (a.threads : ℚ)))

/-- The concrete example series of the spec. -/
def exSeriesA7 : List PointA7 :=
  [⟨1, 1000, "t1_m16"⟩, ⟨2, 600, "t2_m16"⟩, ⟨4, 400, "t4_m16"⟩]

/-- Sorted series with a duplicated thread count. -/
def dupSeries : List PointA7 := [⟨2, 100, "t2_a"⟩, ⟨2, 50, "t2_b"⟩]

theorem stripLit_eq_some {lit s r : List Char} :
    stripLit lit s = some r ↔ s = lit ++ r := by
  induction lit generalizing s with
  | nil => simp [stripLit]
  | cons c lit ih =>
    cases s with
    | nil => simp [stripLit]
    | cons d s =>
      by_cases h : c = d
      · simp [stripLit, h, ih]
      · simp only [stripLit, if_neg h]
        constructor
        · intro hc; cases hc
        · intro hc; injection hc with h1 _; exact absurd h1.symm h

/-! ## General lemmas about the embedding -/

/-- Two distinct anchored literals cannot both be prefixes of the same
line: a position where they disagree rules one of them out. -/
theorem stripLit_none_of_ne {lit1 lit2 s r : List Char} {i : ℕ}
    (h1 : i < lit1.length) (h2 : i < lit2.length)
    (hne : lit1[i]? ≠ lit2[i]?) (h : stripLit lit1 s = some r) :
    stripLit lit2 s = none := by
  rw [stripLit_eq_some] at h
  cases hc : stripLit lit2 s with
  | none => rfl
  | some r2 =>
    rw [stripLit_eq_some] at hc
    have e1 : s[i]? = lit1[i]? := by rw [h]; exact List.getElem?_append_left h1
    have e2 : s[i]? = lit2[i]? := by rw [hc]; exact List.getElem?_append_left h2
    exact absurd (e1.symm.trans e2) hne

/-- Lines recognised as `numCycles` lines are never `sim_insts` lines. -/
theorem matchSimInsts_eq_none_of_numCycles {s : String} {x : List Char × ℕ}
    (h : matchNumCycles s = some x) : matchSimInsts s = none := by
  cases hc : stripLit "system.cpu".data s.data with
  | none => simp [matchNumCycles, hc] at h
  | some r =>
    have : stripLit "sim_insts".data s.data = none := by
      refine stripLit_none_of_ne (i := 1) ?_ ?_ ?_ hc
      · decide
      · decide
      · decide
    simp [matchSimInsts, matchLabeledNat, this]

/-- Lines recognised as IPC lines are never `sim_insts` lines. -/
theorem matchSimInsts_eq_none_of_ipc {s : String} {x : ℚ}
    (h : matchIpc s = some x) : matchSimInsts s = none := by
  cases hc : stripLit "system.cpu".data s.data with
  | none => simp [matchIpc, hc] at h
  | some r =>
    have : stripLit "sim_insts".data s.data = none := by
      refine stripLit_none_of_ne (i := 1) ?_ ?_ ?_ hc
      · decide
      · decide
      · decide
    simp [matchSimInsts, matchLabeledNat, this]

theorem getLast?_getD_cons (v : ℕ) (xs : List ℕ) (d : ℕ) :
    ((v :: xs).getLast?.getD d) = xs.getLast?.getD v := by
  cases xs with
  | nil => rfl
  | cons x xs =>
    rw [List.getLast?_cons_cons]
    cases hx : (x :: xs).getLast? with
    | some a => simp [hx]
    | none => exact absurd (List.getLast?_eq_none_iff.mp hx) (by simp)

/-- One `parse_stats` loop iteration, seen through `sim_insts` only:
a matching line overwrites the old value, anything else keeps it. -/
theorem statStep_sim_insts (st : StatScan) (l : String) :
    (statStep st l).sim_insts = (matchSimInsts (pyStrip l)).getD st.sim_insts := by
  unfold statStep
  cases hn : matchNumCycles (pyStrip l) with
  | some x => simp [hn, matchSimInsts_eq_none_of_numCycles hn]
  | none =>
    cases hi : matchIpc (pyStrip l) with
    | some x => simp [hn, hi, matchSimInsts_eq_none_of_ipc hi]
    | none =>
      cases hs : matchSimInsts (pyStrip l) with
      | some v => simp [hn, hi, hs]
      | none => simp [hn, hi, hs]

/-- One `parse_config` loop iteration, seen through `sim_insts` only. -/
theorem confStep_sim_insts (st : ConfScan) (l : String) :
    (confStep st l).sim_insts = (matchSimInsts (pyStrip l)).getD st.sim_insts := by
  unfold confStep
  cases hn : matchNumCycles (pyStrip l) with
  | some x => simp [hn, matchSimInsts_eq_none_of_numCycles hn]
  | none =>
    cases hs : matchSimInsts (pyStrip l) with
    | some v => simp [hn, hs]
    | none => simp [hn, hs]

theorem foldl_statStep_sim_insts :
    ∀ (lines : List String) (st : StatScan),
      (lines.foldl statStep st).sim_insts =
        ((lines.filterMap (fun l => matchSimInsts (pyStrip l))).getLast?.getD
          st.sim_insts) := by
  intro lines
  induction lines with
  | nil => intro st; rfl
  | cons l ls ih =>
    intro st
    rw [List.foldl_cons, ih, List.filterMap_cons]
    cases hs : matchSimInsts (pyStrip l) with
    | none => rw [statStep_sim_insts, hs]; rfl
    | some v => rw [statStep_sim_insts, hs, getLast?_getD_cons]; rfl

theorem foldl_confStep_sim_insts :
    ∀ (lines : List String) (st : ConfScan),
      (lines.foldl confStep st).sim_insts =
        ((lines.filterMap (fun l => matchSimInsts (pyStrip l))).getLast?.getD
          st.sim_insts) := by
  intro lines
  induction lines with
  | nil => intro st; rfl
  | cons l ls ih =>
    intro st
    rw [List.foldl_cons, ih, List.filterMap_cons]
    cases hs : matchSimInsts (pyStrip l) with
    | none => rw [confStep_sim_insts, hs]; rfl
    | some v => rw [confStep_sim_insts, hs, getLast?_getD_cons]; rfl

/-- C6: For every log file in which the instruction-count label occurs on
more than one line, the parser's captured `instruction_count` equals the
numeric value of the last matching line (last occurrence wins), not an
aggregate of all occurrences.  Shown in the stronger, unconditional form:
in both `parse_stats` (`plot_ipc_cortexA15.py`) and `parse_config`
(`plot_ipc_max_cortexA7.py`), the captured `sim_insts` is always the value
of the last `sim_insts` line (or the initial `0` when there is none). -/
theorem sim_insts_last_occurrence_wins (lines : List String) :
    (scanStats lines).sim_insts =
      ((lines.filterMap (fun l => matchSimInsts (pyStrip l))).getLast?.getD 0) ∧
    (scanConfig lines).sim_insts =
      ((lines.filterMap (fun l => matchSimInsts (pyStrip l))).getLast?.getD 0) :=
  ⟨foldl_statStep_sim_insts lines _, foldl_confStep_sim_insts lines _⟩

/-- C4: For every log file containing no per-core cycle-count line, the
parser derives a single synthetic cycle count as `round(sim_ticks / period)`
when a simulated-time-ticks value and a clock period `> 0` are both
present, the period being the core-local clock signal if present and
otherwise the system-wide one (`effPeriod`).  Shown for `parse_cycles` of
both `plot_performance_cortexA15.py` and `plot_cycles_cortexA7.py`. -/
theorem parse_cycles_fallback (lines : List String) (t p : ℕ)
    (hcyc : (scanCycles lines).cycles = [])
    (hticks : (scanCycles lines).sim_ticks = some t)
    (hper : effPeriod (scanCycles lines) = some p)
    (hpos : 0 < p) :
    parse_cycles lines = .ok (pyRound ((t : ℚ) / (p : ℚ))) ∧
    parse_cyclesSrc lines =
      .ok (pyRound ((t : ℚ) / (p : ℚ)), "sim_ticks / clock_period") := by
  constructor
  · simp [parse_cycles, hcyc, hticks, hper, hpos]
  · simp [parse_cyclesSrc, hcyc, hticks, hper, hpos]

/-- Witness for C4: on the concrete fallback example the derived cycle
count is `500`. -/
theorem parse_cycles_fallback_witness :
    (scanCycles fallbackLines).cycles = [] ∧
    (scanCycles fallbackLines).sim_ticks = some 500000 ∧
    effPeriod (scanCycles fallbackLines) = some 1000 ∧
    0 < 1000 ∧
    parse_cycles fallbackLines = .ok 500 := by
  refine ⟨by decide, by decide, by decide, by decide, ?_⟩
  have h := (parse_cycles_fallback fallbackLines 500000 1000
    (by decide) (by decide) (by decide) (by decide)).1
  rw [h]
  have e : ((500000 : ℕ) : ℚ) / ((1000 : ℕ) : ℚ) = (500 : ℚ) := by norm_num
  rw [e]
  have hf : ratFloor (500 : ℚ) = 500 := by decide
  unfold pyRound
  rw [hf]
  norm_num

/-! ## Structure of the `collect_points` sweeps -/

theorem foldl_pair_append {α β γ : Type} (f : γ → List α × List β) :
    ∀ (l : List γ) (a : List α) (b : List β),
      l.foldl (fun acc e => (acc.1 ++ (f e).1, acc.2 ++ (f e).2)) (a, b) =
        (a ++ l.flatMap (fun e => (f e).1), b ++ l.flatMap (fun e => (f e).2)) := by
  intro l
  induction l with
  | nil => intro a b; simp
  | cons e l ih =>
    intro a b
    rw [List.foldl_cons, ih, List.flatMap_cons, List.flatMap_cons]
    simp [List.append_assoc]

/-- The Cortex-A15 sweep, decomposed: one contribution per directory,
in name-sorted order, with the points re-sorted by `(width, threads)`
at the end. -/
theorem collect_pointsA15_eq (root : List FsEntry) (mt : Option ℕ) :
    collect_pointsA15 root mt =
      (((root.insertionSort nameLe).flatMap
          (fun e => (entryResultA15 mt e).1)).insertionSort wtLe,
       (root.insertionSort nameLe).flatMap (fun e => (entryResultA15 mt e).2)) := by
  unfold collect_pointsA15
  have hs : stepA15 mt = fun (acc : List PointA15 × List String) e =>
      (acc.1 ++ (entryResultA15 mt e).1, acc.2 ++ (entryResultA15 mt e).2) := rfl
  rw [hs, foldl_pair_append (fun e => entryResultA15 mt e)]
  simp

/-- The Cortex-A7 sweep, decomposed likewise (points re-sorted by
thread count). -/
theorem collect_pointsA7_eq (root : List FsEntry) :
    collect_pointsA7 root =
      (((root.insertionSort nameLe).flatMap
          (fun e => (entryResultA7 e).1)).insertionSort thrLe,
       (root.insertionSort nameLe).flatMap (fun e => (entryResultA7 e).2)) := by
  unfold collect_pointsA7
  have hs : stepA7 = fun (acc : List PointA7 × List String) e =>
      (acc.1 ++ (entryResultA7 e).1, acc.2 ++ (entryResultA7 e).2) := rfl
  rw [hs, foldl_pair_append (fun e => entryResultA7 e)]
  simp

/-- A warning contributed by any entry of the root shows up in the
sweep's warning list. -/
theorem warn_mem_collectA15 {pre post : List FsEntry} {e : FsEntry}
    {mt : Option ℕ} {w : String} (hw : w ∈ (entryResultA15 mt e).2) :
    w ∈ (collect_pointsA15 (pre ++ e :: post) mt).2 := by
  rw [collect_pointsA15_eq]
  exact List.mem_flatMap.mpr ⟨e, by simp, hw⟩

theorem warn_mem_collectA7 {pre post : List FsEntry} {e : FsEntry}
    {w : String} (hw : w ∈ (entryResultA7 e).2) :
    w ∈ (collect_pointsA7 (pre ++ e :: post)).2 := by
  rw [collect_pointsA7_eq]
  exact List.mem_flatMap.mpr ⟨e, by simp, hw⟩

/-- An entry contributing no point can be dropped from the root without
changing the sweep's points (up to the final stable re-sort). -/
theorem points_perm_collectA15 {pre post : List FsEntry} {e : FsEntry}
    {mt : Option ℕ} (hp : (entryResultA15 mt e).1 = []) :
    ((collect_pointsA15 (pre ++ e :: post) mt).1).Perm
      ((collect_pointsA15 (pre ++ post) mt).1) := by
  rw [collect_pointsA15_eq, collect_pointsA15_eq]
  refine (List.perm_insertionSort wtLe _).trans (.trans ?_ (List.perm_insertionSort wtLe _).symm)
  refine ((List.perm_insertionSort nameLe _).flatMap_right _).trans
    (.trans ?_ ((List.perm_insertionSort nameLe _).flatMap_right _).symm)
  simp [List.flatMap_append, hp]

theorem points_perm_collectA7 {pre post : List FsEntry} {e : FsEntry}
    (hp : (entryResultA7 e).1 = []) :
    ((collect_pointsA7 (pre ++ e :: post)).1).Perm
      ((collect_pointsA7 (pre ++ post)).1) := by
  rw [collect_pointsA7_eq, collect_pointsA7_eq]
  refine (List.perm_insertionSort thrLe _).trans (.trans ?_ (List.perm_insertionSort thrLe _).symm)
  refine ((List.perm_insertionSort nameLe _).flatMap_right _).trans
    (.trans ?_ ((List.perm_insertionSort nameLe _).flatMap_right _).symm)
  simp [List.flatMap_append, hp]

/-- C7 counterexample: the scanner's output is NOT ordered
lexicographically by directory name — on `rootC7` the returned pairs
come out as `t2_b`, `t16_a` although `t16_a < t2_b` lexicographically,
because `collect_points` re-sorts its points by thread count. -/
theorem collect_points_not_name_sorted :
    (collect_pointsA7 rootC7).1.map PointA7.folder = ["t2_b", "t16_a"] ∧
    ¬ List.Sorted (fun p q : PointA7 => charsLe p.folder.data q.folder.data = true)
        (collect_pointsA7 rootC7).1 := by
  refine ⟨by decide, ?_⟩
  intro h
  have he : (collect_pointsA7 rootC7).1 =
      [⟨2, 9, "t2_b"⟩, ⟨16, 7, "t16_a"⟩] := by decide
  rw [he] at h
  have hr := (List.pairwise_cons.mp h).1 ⟨16, 7, "t16_a"⟩ (by simp)
  exact absurd hr (by decide)

/-- C7 amended: the scanner examines directories in lexicographic name
order, but the POINT list it returns is sorted by thread count
(Cortex-A7) respectively by `(width, threads)` (Cortex-A15); the output
pair order is therefore thread order, not name order. -/
theorem collect_points_sorted_by_threads :
    (∀ root : List FsEntry, List.Sorted thrLe (collect_pointsA7 root).1) ∧
    (∀ (root : List FsEntry) (mt : Option ℕ),
      List.Sorted wtLe (collect_pointsA15 root mt).1) := by
  constructor
  · intro root
    rw [collect_pointsA7_eq]
    exact List.sorted_insertionSort thrLe _
  · intro root mt
    rw [collect_pointsA15_eq]
    exact List.sorted_insertionSort wtLe _

/-- Helper: `statsResultA15` only looks at the `stats` and `name`
fields. -/
theorem statsResultA15_congr {e e' : FsEntry} (w t : ℕ)
    (h1 : e.stats = e'.stats) (h2 : e.name = e'.name) :
    statsResultA15 e w t = statsResultA15 e' w t := by
  unfold statsResultA15
  rw [h1, h2]

/-- C8 counterexample: the exclusion test and the warning use the
whitespace-STRIPPED marker content, not the literal file content.  A
marker ` OK` does not begin with the literal token `OK`, yet its
directory is kept with no warning; and for a marker `FAILED: oom\n` the
emitted warning carries the stripped text, not the literal content. -/
theorem collect_status_literal_counterexample :
    pyStartsWith " OK" "OK" = false ∧
    (collect_pointsA15 rootC8 none).1 = [⟨2, 1, 100, "w2_t1"⟩] ∧
    (collect_pointsA15 rootC8 none).2 = [] ∧
    (collect_pointsA15 rootC8b none).1 = [] ∧
    (collect_pointsA15 rootC8b none).2 = ["w2_t1: ignore (FAILED: oom)"] ∧
    strContains "w2_t1: ignore (FAILED: oom)" "FAILED: oom\n" = false := by
  decide

/-- C8 amended: for every configuration directory with a status marker,
if the whitespace-stripped marker content does not begin with `OK` the
directory is excluded and a warning carrying the stripped content is
appended; if the stripped content does begin with `OK`, the entry is
processed exactly as if no marker were present. -/
theorem collect_status_marker_stripped :
    ∀ (pre post : List FsEntry) (e : FsEntry) (mt : Option ℕ) (s : String) (w t : ℕ),
      e.isDir = true →
      e.status = some s →
      parse_dir_name e.name = some (w, t) →
      exceedsMax mt t = false →
      ((pyStartsWith (pyStrip s) "OK" = false →
        (e.name ++ ": ignore (" ++ pyStrip s ++ ")") ∈
          (collect_pointsA15 (pre ++ e :: post) mt).2 ∧
        ((collect_pointsA15 (pre ++ e :: post) mt).1).Perm
          ((collect_pointsA15 (pre ++ post) mt).1)) ∧
      (pyStartsWith (pyStrip s) "OK" = true →
        ∀ acc, stepA15 mt acc e = stepA15 mt acc { e with status := none })) := by
  intro pre post e mt s w t hdir hst hname hmax
  constructor
  · intro hok
    have hres : entryResultA15 mt e =
        ([], [e.name ++ ": ignore (" ++ pyStrip s ++ ")"]) := by
      simp [entryResultA15, hdir, hst, hname, hmax, hok]
    exact ⟨warn_mem_collectA15 (by rw [hres]; simp),
      points_perm_collectA15 (by rw [hres])⟩
  · intro hok acc
    have hres : entryResultA15 mt e = entryResultA15 mt { e with status := none } := by
      have h1 : entryResultA15 mt e = statsResultA15 e w t := by
        simp [entryResultA15, hdir, hst, hname, hmax, hok]
      have h2 : entryResultA15 mt { e with status := none } =
          statsResultA15 { e with status := none } w t := by
        simp [entryResultA15, hdir, hname, hmax]
      rw [h1, h2]
      exact statsResultA15_congr w t rfl rfl
    simp [stepA15, hres]

/-- C9: a zero-byte `stats.txt` yields the `vide` warning and no point,
and the rest of the sweep is unaffected: dropping the directory from the
root leaves the same points (up to the stable re-sort).  Shown for both
`collect_points` functions (Cortex-A15 performance, Cortex-A7 speedup). -/
theorem collect_zero_byte_stats :
    (∀ (pre post : List FsEntry) (e : FsEntry) (mt : Option ℕ) (w t : ℕ),
      e.isDir = true →
      parse_dir_name e.name = some (w, t) →
      exceedsMax mt t = false →
      statusOk e →
      e.stats = some "" →
      (e.name ++ ": stats.txt vide") ∈ (collect_pointsA15 (pre ++ e :: post) mt).2 ∧
      ((collect_pointsA15 (pre ++ e :: post) mt).1).Perm
        ((collect_pointsA15 (pre ++ post) mt).1)) ∧
    (∀ (pre post : List FsEntry) (e : FsEntry) (m : ℕ × Option ℕ),
      e.isDir = true →
      matchDirA7Speedup e.name = some m →
      e.stats = some "" →
      (e.name ++ ": stats.txt vide") ∈ (collect_pointsA7 (pre ++ e :: post)).2 ∧
      ((collect_pointsA7 (pre ++ e :: post)).1).Perm
        ((collect_pointsA7 (pre ++ post)).1)) := by
  constructor
  · intro pre post e mt w t hdir hname hmax hok hstats
    have hres : entryResultA15 mt e = ([], [e.name ++ ": stats.txt vide"]) := by
      unfold statusOk at hok
      cases hs : e.status with
      | none => simp [entryResultA15, hdir, hname, hmax, hs, statsResultA15, hstats]
      | some s =>
        rw [hs] at hok
        simp [entryResultA15, hdir, hname, hmax, hs, hok, statsResultA15, hstats]
    exact ⟨warn_mem_collectA15 (by rw [hres]; simp),
      points_perm_collectA15 (by rw [hres])⟩
  · intro pre post e m hdir hname hstats
    have hres : entryResultA7 e = ([], [e.name ++ ": stats.txt vide"]) := by
      simp [entryResultA7, hdir, hname, hstats]
    exact ⟨warn_mem_collectA7 (by rw [hres]; simp),
      points_perm_collectA7 (by rw [hres])⟩

/-- Witness for the amended C8 theorem at concrete roots. -/
theorem collect_status_marker_stripped_witness :
    (("w2_t1" ++ ": ignore (" ++ pyStrip "FAILED: oom\n" ++ ")") ∈
      (collect_pointsA15 ([] ++ entC8bad :: [entGoodA15]) none).2 ∧
     ((collect_pointsA15 ([] ++ entC8bad :: [entGoodA15]) none).1).Perm
       ((collect_pointsA15 ([] ++ [entGoodA15]) none).1)) ∧
    stepA15 none ([], []) entC8ok = stepA15 none ([], []) { entC8ok with status := none } := by
  constructor
  · exact (collect_status_marker_stripped [] [entGoodA15] entC8bad none
      "FAILED: oom\n" 2 1 (by decide) rfl (by decide) (by decide)).1 (by decide)
  · exact (collect_status_marker_stripped [] [entGoodA15] entC8ok none
      " OK done" 2 1 (by decide) rfl (by decide) (by decide)).2 (by decide) ([], [])

/-- Witness for C9 at concrete roots. -/
theorem collect_zero_byte_stats_witness :
    (("w2_t1" ++ ": stats.txt vide") ∈
      (collect_pointsA15 ([] ++ entC9a15 :: [entGoodA15]) none).2 ∧
     ((collect_pointsA15 ([] ++ entC9a15 :: [entGoodA15]) none).1).Perm
       ((collect_pointsA15 ([] ++ [entGoodA15]) none).1)) ∧
    (("t2_x" ++ ": stats.txt vide") ∈
      (collect_pointsA7 ([] ++ entC9a7 :: [entGoodA7])).2 ∧
     ((collect_pointsA7 ([] ++ entC9a7 :: [entGoodA7])).1).Perm
       ((collect_pointsA7 ([] ++ [entGoodA7])).1)) :=
  ⟨collect_zero_byte_stats.1 [] [entGoodA15] entC9a15 none 2 1
      (by decide) (by decide) (by decide) (by decide) rfl,
   collect_zero_byte_stats.2 [] [entGoodA7] entC9a7 (2, none)
      (by decide) (by decide) rfl⟩

/-! ## The Cortex-A7 directory-name grammar (cpus token) -/

theorem takeWhile_append_cons {p : Char → Bool} :
    ∀ (d : List Char) (x : Char) (r : List Char),
      (∀ c ∈ d, p c = true) → p x = false →
      (d ++ x :: r).takeWhile p = d ∧ (d ++ x :: r).dropWhile p = x :: r := by
  intro d
  induction d with
  | nil =>
    intro x r _ hx
    simp [List.takeWhile_cons, List.dropWhile_cons, hx]
  | cons a d ih =>
    intro x r hall hx
    have ha : p a = true := hall a (by simp)
    obtain ⟨h1, h2⟩ := ih x r (fun c hc => hall c (by simp [hc])) hx
    simp [List.takeWhile_cons, List.dropWhile_cons, ha, h1, h2]

/-- C10: on a directory name of the grammar `t<threads>_cpus<n>_...`,
both Cortex-A7 name patterns capture the `cpus` group, and the thread
coordinate the scanners use (`effThreads`, i.e.
`int(cpus or threads)`) is `n`, not the leading threads token; the
leading token is used exactly when the `cpus` group is absent. -/
theorem dir_cpus_token_wins :
    (∀ (d1 d2 rest : List Char),
      d1 ≠ [] → d2 ≠ [] →
      (∀ c ∈ d1, isDigitC c = true) → (∀ c ∈ d2, isDigitC c = true) →
      matchDirA7Speedup ⟨'t' :: (d1 ++ '_' :: 'c' :: 'p' :: 'u' :: 's' :: (d2 ++ '_' :: rest))⟩ =
          some (natOfDigits d1, some (natOfDigits d2)) ∧
      matchDirA7Cycles ⟨'t' :: (d1 ++ '_' :: 'c' :: 'p' :: 'u' :: 's' :: (d2 ++ '_' :: rest))⟩ =
          some (natOfDigits d1, some (natOfDigits d2)) ∧
      effThreads (natOfDigits d1, some (natOfDigits d2)) = natOfDigits d2) ∧
    (∀ t : ℕ, effThreads (t, none) = t) := by
  refine ⟨?_, fun t => rfl⟩
  intro d1 d2 rest h1ne h2ne h1d h2d
  have hu : isDigitC '_' = false := by decide
  have hie1 : d1.isEmpty = false := by
    cases d1 with
    | nil => exact absurd rfl h1ne
    | cons a l => rfl
  have hie2 : d2.isEmpty = false := by
    cases d2 with
    | nil => exact absurd rfl h2ne
    | cons a l => rfl
  obtain ⟨ht1, hd1⟩ := takeWhile_append_cons d1 '_'
    ('c' :: 'p' :: 'u' :: 's' :: (d2 ++ '_' :: rest)) h1d hu
  obtain ⟨ht2, hd2⟩ := takeWhile_append_cons d2 '_' rest h2d hu
  have htd1 : takeDigits1 (d1 ++ '_' :: 'c' :: 'p' :: 'u' :: 's' :: (d2 ++ '_' :: rest)) =
      some (natOfDigits d1, '_' :: 'c' :: 'p' :: 'u' :: 's' :: (d2 ++ '_' :: rest)) := by
    unfold takeDigits1
    rw [ht1, hd1]
    simp [hie1]
  have htd2 : takeDigits1 (d2 ++ '_' :: rest) = some (natOfDigits d2, '_' :: rest) := by
    unfold takeDigits1
    rw [ht2, hd2]
    simp [hie2]
  refine ⟨?_, ?_, rfl⟩
  · simp only [matchDirA7Speedup, String.data]
    rw [show stripLit ['t'] ('t' :: (d1 ++ '_' :: 'c' :: 'p' :: 'u' :: 's' :: (d2 ++ '_' :: rest))) =
        some (d1 ++ '_' :: 'c' :: 'p' :: 'u' :: 's' :: (d2 ++ '_' :: rest)) from by simp [stripLit]]
    simp only [Option.bind_eq_bind, Option.some_bind, htd1]
    rw [show stripLit ['_', 'c', 'p', 'u', 's']
        ('_' :: 'c' :: 'p' :: 'u' :: 's' :: (d2 ++ '_' :: rest)) =
        some (d2 ++ '_' :: rest) from by simp [stripLit]]
    simp only [Option.bind_eq_bind, Option.some_bind, htd2]
    simp [stripLit]
  · simp only [matchDirA7Cycles, String.data]
    rw [show stripLit ['t'] ('t' :: (d1 ++ '_' :: 'c' :: 'p' :: 'u' :: 's' :: (d2 ++ '_' :: rest))) =
        some (d1 ++ '_' :: 'c' :: 'p' :: 'u' :: 's' :: (d2 ++ '_' :: rest)) from by simp [stripLit]]
    simp only [Option.bind_eq_bind, Option.some_bind, htd1]
    rw [show stripLit ['_', 'c', 'p', 'u', 's']
        ('_' :: 'c' :: 'p' :: 'u' :: 's' :: (d2 ++ '_' :: rest)) =
        some (d2 ++ '_' :: rest) from by simp [stripLit]]
    simp only [Option.bind_eq_bind, Option.some_bind, htd2]
    simp [underscoreOrEnd]

/-- Witness for C10 at the concrete name `t1_cpus4_m`. -/
theorem dir_cpus_token_wins_witness :
    matchDirA7Speedup "t1_cpus4_m" = some (1, some 4) ∧
    matchDirA7Cycles "t1_cpus4_m" = some (1, some 4) ∧
    effThreads (1, some 4) = 4 ∧
    effThreads (3, none) = 3 := by
  obtain ⟨ha, hb, hc⟩ := dir_cpus_token_wins.1 ['1'] ['4'] ['m']
    (by decide) (by decide) (by decide) (by decide)
  have hn : ("t1_cpus4_m" : String) =
      ⟨'t' :: (['1'] ++ '_' :: 'c' :: 'p' :: 'u' :: 's' :: (['4'] ++ '_' :: ['m']))⟩ := by decide
  refine ⟨?_, ?_, ?_, dir_cpus_token_wins.2 3⟩
  · rw [hn, ha]; decide
  · rw [hn, hb]; decide
  · rw [show (1, some 4) = (natOfDigits ['1'], some (natOfDigits ['4'])) from by decide, hc]
    decide

/-- C5 amended: `parse_stats` fails exactly when no cycle line, no IPC
line, a non-positive instruction count, or a zero maximal cycle count
was scanned — and on success its maximal cycle count is positive;
`parse_cycles` fails exactly when no cycle line was scanned and the
tick/period fallback is unusable (its result, unlike `parse_stats`'s,
is not guaranteed positive). -/
theorem parse_failure_characterization (lines : List String) :
    (isOkE (parse_stats lines) = false ↔
      ((scanStats lines).cycles = [] ∨ (scanStats lines).ipc_vals = [] ∨
       (scanStats lines).sim_insts = 0 ∨
       (scanStats lines).cycles.foldl max 0 = 0)) ∧
    (isOkE (parse_stats lines) = true → 0 < (scanStats lines).cycles.foldl max 0) ∧
    (isOkE (parse_cycles lines) = false ↔
      ((scanCycles lines).cycles = [] ∧ ¬ fallbackUsable (scanCycles lines))) := by
  refine ⟨?_, ?_, ?_⟩
  · unfold parse_stats
    dsimp only
    split_ifs with h1 h2 h3 h4 <;> simp_all [isOkE]
  · unfold parse_stats
    dsimp only
    split_ifs with h1 h2 h3 h4 <;> simp_all [isOkE]
    omega
  · unfold parse_cycles
    by_cases hc : (scanCycles lines).cycles = []
    · simp only [hc, ne_eq, not_true_eq_false, if_neg, ite_false, not_not]
      cases hti : (scanCycles lines).sim_ticks with
      | none => simp [isOkE, fallbackUsable, hti, hc]
      | some tk =>
        cases hp : effPeriod (scanCycles lines) with
        | none => simp [isOkE, fallbackUsable, hti, hp, hc]
        | some p =>
          by_cases hpos : 0 < p
          · simp [isOkE, fallbackUsable, hti, hp, hpos, hc]
          · simp [isOkE, fallbackUsable, hti, hp, hpos, hc]
    · simp [isOkE, hc]

/-- C5 counterexample: `parse_stats` fails on a file where a cycle count
was established (100) and a positive instruction count (50) was found —
because no IPC line is present, a failure condition the claim's `iff`
omits; and `parse_cycles` succeeds with the non-positive effective cycle
count `0`, contradicting the claim's positivity guarantee. -/
theorem parse_failure_characterization_counterexample :
    isOkE (parse_stats statsLinesNoIpc) = false ∧
    (scanStats statsLinesNoIpc).cycles = [100] ∧
    (scanStats statsLinesNoIpc).sim_insts = 50 ∧
    parse_cycles cyclesLinesZero = .ok 0 := by decide

/-- Witness for the amended C5 theorem on a successful parse. -/
theorem parse_failure_characterization_witness :
    isOkE (parse_stats statsLinesOk) = true ∧
    0 < (scanStats statsLinesOk).cycles.foldl max 0 :=
  ⟨by decide, (parse_failure_characterization statsLinesOk).2.1 (by decide)⟩

/-! ## Metric computation -/

@[simp] theorem exc_ok_bind {ε α β : Type} (a : α) (f : α → Except ε β) :
    (Except.ok a >>= f) = f a := rfl

@[simp] theorem exc_error_bind {ε α β : Type} (e : ε) (f : α → Except ε β) :
    ((Except.error e : Except ε α) >>= f) = .error e := rfl

/-- Full case analysis of one `i > 0` loop iteration: either some
division raised, or every denominator was nonzero and the result is the
fully written-out point. -/
theorem nextMetric_cases (b : ℚ) (prev : MetricPoint) (p : PointA7) :
    (∃ e, nextMetric b prev p = .error e) ∨
    ((p.cycles : ℚ) ≠ 0 ∧ (p.threads : ℚ) ≠ 0 ∧ (prev.threads : ℚ) ≠ 0 ∧
     (p.threads : ℚ) - (prev.threads : ℚ) ≠ 0 ∧
     nextMetric b prev p = .ok
       ⟨p.threads, p.cycles, p.folder, b / (p.cycles : ℚ),
        b / (p.cycles : ℚ) / (p.threads : ℚ),
        some ((prev.cycles : ℚ) / (p.cycles : ℚ)),
        some (((prev.cycles : ℚ) / (p.cycles : ℚ)) / ((p.threads : ℚ) / (prev.threads : ℚ))),
        some ((b / (p.cycles : ℚ) - prev.speedup) /
          ((p.threads : ℚ) - (prev.threads : ℚ)))⟩) := by
  by_cases h1 : (p.cycles : ℚ) = 0
  · exact Or.inl ⟨.zeroDivision, by simp [nextMetric, pydiv, h1]⟩
  by_cases h2 : (p.threads : ℚ) = 0
  · exact Or.inl ⟨.zeroDivision, by simp [nextMetric, pydiv, h1, h2]⟩
  by_cases h3 : (prev.threads : ℚ) = 0
  · exact Or.inl ⟨.zeroDivision, by simp [nextMetric, pydiv, h1, h2, h3]⟩
  have hr : (p.threads : ℚ) / (prev.threads : ℚ) ≠ 0 := div_ne_zero h2 h3
  by_cases h4 : (p.threads : ℚ) - (prev.threads : ℚ) = 0
  · exact Or.inl ⟨.zeroDivision, by simp [nextMetric, pydiv, h1, h2, h3, hr, h4]⟩
  · exact Or.inr ⟨h1, h2, h3, h4, by simp [nextMetric, pydiv, h1, h2, h3, hr, h4]⟩

/-- A zero thread delta makes the iteration raise. -/
theorem nextMetric_error_of_eq {b : ℚ} {prev : MetricPoint} {p : PointA7}
    (h : prev.threads = p.threads) : ∃ e, nextMetric b prev p = .error e := by
  rcases nextMetric_cases b prev p with he | ⟨_, _, _, h4, _⟩
  · exact he
  · exact absurd (by rw [h]; ring) h4

/-- A successful iteration keeps the point's thread count. -/
theorem nextMetric_ok_threads {b : ℚ} {prev o : MetricPoint} {p : PointA7}
    (h : nextMetric b prev p = .ok o) : o.threads = p.threads := by
  rcases nextMetric_cases b prev p with ⟨e, he⟩ | ⟨_, _, _, _, hok⟩
  · rw [he] at h; cases h
  · rw [hok] at h
    injection h with h'
    rw [← h']

/-- Success of one iteration under the usual positivity and strict
ascent hypotheses. -/
theorem nextMetric_ok {b : ℚ} {prev : MetricPoint} {p : PointA7}
    (hc : p.cycles ≠ 0) (ht : p.threads ≠ 0) (hpt : prev.threads ≠ 0)
    (hlt : prev.threads < p.threads) :
    nextMetric b prev p = .ok
      ⟨p.threads, p.cycles, p.folder, b / (p.cycles : ℚ),
       b / (p.cycles : ℚ) / (p.threads : ℚ),
       some ((prev.cycles : ℚ) / (p.cycles : ℚ)),
       some (((prev.cycles : ℚ) / (p.cycles : ℚ)) / ((p.threads : ℚ) / (prev.threads : ℚ))),
       some ((b / (p.cycles : ℚ) - prev.speedup) /
         ((p.threads : ℚ) - (prev.threads : ℚ)))⟩ := by
  have h1 : (p.cycles : ℚ) ≠ 0 := Nat.cast_ne_zero.mpr hc
  have h2 : (p.threads : ℚ) ≠ 0 := Nat.cast_ne_zero.mpr ht
  have h3 : (prev.threads : ℚ) ≠ 0 := Nat.cast_ne_zero.mpr hpt
  have hr : (p.threads : ℚ) / (prev.threads : ℚ) ≠ 0 := div_ne_zero h2 h3
  have hlt' : (prev.threads : ℚ) < (p.threads : ℚ) := by exact_mod_cast hlt
  have h4 : (p.threads : ℚ) - (prev.threads : ℚ) ≠ 0 := sub_ne_zero_of_ne hlt'.ne'
  simp [nextMetric, pydiv, h1, h2, h3, hr, h4]

/-- Success of the `i = 0` iteration. -/
theorem firstMetric_ok {b : ℚ} {p : PointA7} (hc : p.cycles ≠ 0) (ht : p.threads ≠ 0) :
    firstMetric b p = .ok
      ⟨p.threads, p.cycles, p.folder, b / (p.cycles : ℚ),
       b / (p.cycles : ℚ) / (p.threads : ℚ), none, none, none⟩ := by
  have h1 : (p.cycles : ℚ) ≠ 0 := Nat.cast_ne_zero.mpr hc
  have h2 : (p.threads : ℚ) ≠ 0 := Nat.cast_ne_zero.mpr ht
  simp [firstMetric, pydiv, h1, h2]

/-- A successful `i = 0` iteration keeps the thread count and leaves the
adjacency fields empty. -/
theorem firstMetric_ok_shape {b : ℚ} {o : MetricPoint} {p : PointA7}
    (h : firstMetric b p = .ok o) :
    o.threads = p.threads ∧ o.local_speedup = none ∧ o.local_efficiency = none ∧
      o.marginal_efficiency = none := by
  by_cases h1 : (p.cycles : ℚ) = 0
  · simp [firstMetric, pydiv, h1] at h
  by_cases h2 : (p.threads : ℚ) = 0
  · simp [firstMetric, pydiv, h1, h2] at h
  · have := h
    simp only [firstMetric, pydiv, if_neg h1, if_neg h2, exc_ok_bind] at this
    injection this with h'
    rw [← h']
    exact ⟨rfl, rfl, rfl, rfl⟩

/-- Characterisation of a successful run of the `i > 0` loop over a
strictly thread-ascending tail: the computed speedups and efficiencies
are the baseline formulas, and consecutive outputs satisfy the
adjacency formulas. -/
theorem metricLoop_char (b : ℚ) :
    ∀ (l : List PointA7) (prev : MetricPoint),
      prev.threads ≠ 0 →
      (∀ q ∈ l, 0 < q.threads ∧ 0 < q.cycles) →
      List.Chain' (fun a c : ℕ => a < c) (prev.threads :: l.map PointA7.threads) →
      ∃ os, metricLoop b prev l = .ok os ∧
        os.map (fun o => (o.threads, o.cycles, o.folder, o.speedup, o.efficiency)) =
          l.map (fun q => (q.threads, q.cycles, q.folder, b / (q.cycles : ℚ),
            b / (q.cycles : ℚ) / (q.threads : ℚ))) ∧
        List.Chain' adjOk (prev :: os) := by
  intro l
  induction l with
  | nil =>
    intro prev _ _ _
    exact ⟨[], rfl, rfl, List.chain'_singleton _⟩
  | cons p rest ih =>
    intro prev hpt hall hchain
    obtain ⟨hthr, hcyc⟩ := hall p (by simp)
    rw [List.map_cons] at hchain
    have hlt : prev.threads < p.threads := (List.chain'_cons.mp hchain).1
    have hnext := nextMetric_ok (b := b)
      (Nat.pos_iff_ne_zero.mp hcyc) (Nat.pos_iff_ne_zero.mp hthr) hpt hlt
    obtain ⟨os, hloop, hmap, hadj⟩ := ih
      ⟨p.threads, p.cycles, p.folder, b / (p.cycles : ℚ),
       b / (p.cycles : ℚ) / (p.threads : ℚ),
       some ((prev.cycles : ℚ) / (p.cycles : ℚ)),
       some (((prev.cycles : ℚ) / (p.cycles : ℚ)) / ((p.threads : ℚ) / (prev.threads : ℚ))),
       some ((b / (p.cycles : ℚ) - prev.speedup) /
         ((p.threads : ℚ) - (prev.threads : ℚ)))⟩
      (Nat.pos_iff_ne_zero.mp hthr)
      (fun q hq => hall q (by simp [hq]))
      ((List.chain'_cons.mp hchain).2)
    refine ⟨⟨p.threads, p.cycles, p.folder, b / (p.cycles : ℚ),
      b / (p.cycles : ℚ) / (p.threads : ℚ),
      some ((prev.cycles : ℚ) / (p.cycles : ℚ)),
      some (((prev.cycles : ℚ) / (p.cycles : ℚ)) / ((p.threads : ℚ) / (prev.threads : ℚ))),
      some ((b / (p.cycles : ℚ) - prev.speedup) /
        ((p.threads : ℚ) - (prev.threads : ℚ)))⟩ :: os, ?_, ?_, ?_⟩
    · simp [metricLoop, hnext, hloop]
    · simp only [List.map_cons, hmap]
    · exact List.chain'_cons.mpr ⟨⟨rfl, rfl, rfl⟩, hadj⟩

/-- Shared success characterisation of `compute_metrics` on a non-empty,
strictly thread-ascending series of positive points. -/
theorem compute_metrics_char (p : PointA7) (rest : List PointA7)
    (hall : ∀ q ∈ p :: rest, 0 < q.threads ∧ 0 < q.cycles)
    (hchain : List.Chain' (fun a c : PointA7 => a.threads < c.threads) (p :: rest)) :
    ∃ os, compute_metrics (p :: rest) = .ok os ∧
      os.map (fun o => (o.threads, o.cycles, o.folder, o.speedup, o.efficiency)) =
        (p :: rest).map (fun q => (q.threads, q.cycles, q.folder,
          ((baselinePoint (p :: rest) p).cycles : ℚ) / (q.cycles : ℚ),
          ((baselinePoint (p :: rest) p).cycles : ℚ) / (q.cycles : ℚ) / (q.threads : ℚ))) ∧
      (∀ o ∈ os.head?, o.local_speedup = none ∧ o.local_efficiency = none ∧
        o.marginal_efficiency = none) ∧
      List.Chain' adjOk os := by
  obtain ⟨hthr, hcyc⟩ := hall p (by simp)
  have hfm := firstMetric_ok (b := ((baselinePoint (p :: rest) p).cycles : ℚ))
    (p := p) (Nat.pos_iff_ne_zero.mp hcyc) (Nat.pos_iff_ne_zero.mp hthr)
  have hchain' : List.Chain' (fun a c : ℕ => a < c)
      (p.threads :: rest.map PointA7.threads) := by
    have h := (List.chain'_map PointA7.threads).mpr hchain
    simpa using h
  obtain ⟨os, hloop, hmap, hadj⟩ := metricLoop_char
    ((baselinePoint (p :: rest) p).cycles : ℚ) rest
    ⟨p.threads, p.cycles, p.folder,
     ((baselinePoint (p :: rest) p).cycles : ℚ) / (p.cycles : ℚ),
     ((baselinePoint (p :: rest) p).cycles : ℚ) / (p.cycles : ℚ) / (p.threads : ℚ),
     none, none, none⟩
    (Nat.pos_iff_ne_zero.mp hthr)
    (fun q hq => hall q (by simp [hq]))
    hchain'
  refine ⟨⟨p.threads, p.cycles, p.folder,
     ((baselinePoint (p :: rest) p).cycles : ℚ) / (p.cycles : ℚ),
     ((baselinePoint (p :: rest) p).cycles : ℚ) / (p.cycles : ℚ) / (p.threads : ℚ),
     none, none, none⟩ :: os, ?_, ?_, ?_, ?_⟩
  · simp [compute_metrics, hfm, hloop]
  · simp only [List.map_cons, hmap]
  · intro o ho
    simp only [List.head?_cons, Option.mem_some_iff] at ho
    rw [← ho]
    exact ⟨rfl, rfl, rfl⟩
  · exact hadj

/-- C1: on every (strictly thread-ascending, positive) series,
`compute_metrics` takes as baseline the point with `threads == 1` if
present, else the first point (that is `baselinePoint`), and sets each
point's speedup to `baseline.cycles / point.cycles` and efficiency to
`speedup / point.threads`; on the concrete series
`[(1,1000), (2,600), (4,400)]` the speedups are `[1, 1.667, 2.5]` and
the efficiencies `[1, 0.833, 0.625]`, each within `1e-3`. -/
theorem compute_metrics_speedup_efficiency :
    (∀ (p : PointA7) (rest : List PointA7),
      (∀ q ∈ p :: rest, 0 < q.threads ∧ 0 < q.cycles) →
      List.Chain' (fun a c : PointA7 => a.threads < c.threads) (p :: rest) →
      ∃ os, compute_metrics (p :: rest) = .ok os ∧
        os.map MetricPoint.speedup = (p :: rest).map
          (fun q => ((baselinePoint (p :: rest) p).cycles : ℚ) / (q.cycles : ℚ)) ∧
        os.map MetricPoint.efficiency = (p :: rest).map
          (fun q => ((baselinePoint (p :: rest) p).cycles : ℚ) / (q.cycles : ℚ) /
            (q.threads : ℚ))) ∧
    (∃ os, compute_metrics exSeriesA7 = .ok os ∧
      List.Forall₂ (fun x c : ℚ => |x - c| ≤ 1 / 1000) (os.map MetricPoint.speedup)
        [1, 1667 / 1000, 5 / 2] ∧
      List.Forall₂ (fun x c : ℚ => |x - c| ≤ 1 / 1000) (os.map MetricPoint.efficiency)
        [1, 833 / 1000, 625 / 1000]) := by
  have main : ∀ (p : PointA7) (rest : List PointA7),
      (∀ q ∈ p :: rest, 0 < q.threads ∧ 0 < q.cycles) →
      List.Chain' (fun a c : PointA7 => a.threads < c.threads) (p :: rest) →
      ∃ os, compute_metrics (p :: rest) = .ok os ∧
        os.map MetricPoint.speedup = (p :: rest).map
          (fun q => ((baselinePoint (p :: rest) p).cycles : ℚ) / (q.cycles : ℚ)) ∧
        os.map MetricPoint.efficiency = (p :: rest).map
          (fun q => ((baselinePoint (p :: rest) p).cycles : ℚ) / (q.cycles : ℚ) /
            (q.threads : ℚ)) := by
    intro p rest hall hchain
    obtain ⟨os, hok, hmap, _, _⟩ := compute_metrics_char p rest hall hchain
    refine ⟨os, hok, ?_, ?_⟩
    · have h5 := congrArg (List.map
        (fun x : ℕ × ℕ × String × ℚ × ℚ => x.2.2.2.1)) hmap
      simpa [List.map_map, Function.comp] using h5
    · have h5 := congrArg (List.map
        (fun x : ℕ × ℕ × String × ℚ × ℚ => x.2.2.2.2)) hmap
      simpa [List.map_map, Function.comp] using h5
  refine ⟨main, ?_⟩
  obtain ⟨os, hok, hs, he⟩ := main ⟨1, 1000, "t1_m16"⟩
    [⟨2, 600, "t2_m16"⟩, ⟨4, 400, "t4_m16"⟩] (by decide)
    (by norm_num [List.chain'_cons])
  have hb : baselinePoint (⟨1, 1000, "t1_m16"⟩ ::
      [⟨2, 600, "t2_m16"⟩, ⟨4, 400, "t4_m16"⟩]) ⟨1, 1000, "t1_m16"⟩ =
      ⟨1, 1000, "t1_m16"⟩ := by decide
  rw [hb] at hs he
  refine ⟨os, hok, ?_, ?_⟩
  · rw [hs]
    refine List.Forall₂.cons ?_ (List.Forall₂.cons ?_ (List.Forall₂.cons ?_ List.Forall₂.nil))
    · rw [abs_le]; constructor <;> norm_num
    · rw [abs_le]; constructor <;> norm_num
    · rw [abs_le]; constructor <;> norm_num
  · rw [he]
    refine List.Forall₂.cons ?_ (List.Forall₂.cons ?_ (List.Forall₂.cons ?_ List.Forall₂.nil))
    · rw [abs_le]; constructor <;> norm_num
    · rw [abs_le]; constructor <;> norm_num
    · rw [abs_le]; constructor <;> norm_num

/-- Witness for C1 at the concrete series. -/
theorem compute_metrics_speedup_efficiency_witness :
    (∀ q ∈ exSeriesA7, 0 < q.threads ∧ 0 < q.cycles) ∧
    List.Chain' (fun a c : PointA7 => a.threads < c.threads) exSeriesA7 ∧
    ∃ os, compute_metrics exSeriesA7 = .ok os ∧
      os.map MetricPoint.speedup = exSeriesA7.map
        (fun q => ((baselinePoint exSeriesA7 ⟨1, 1000, "t1_m16"⟩).cycles : ℚ) /
          (q.cycles : ℚ)) ∧
      os.map MetricPoint.efficiency = exSeriesA7.map
        (fun q => ((baselinePoint exSeriesA7 ⟨1, 1000, "t1_m16"⟩).cycles : ℚ) /
          (q.cycles : ℚ) / (q.threads : ℚ)) :=
  ⟨by decide, by norm_num [exSeriesA7, List.chain'_cons],
   compute_metrics_speedup_efficiency.1 ⟨1, 1000, "t1_m16"⟩
     [⟨2, 600, "t2_m16"⟩, ⟨4, 400, "t4_m16"⟩] (by decide)
     (by norm_num [List.chain'_cons])⟩

/-- C2: on every (strictly thread-ascending, positive) series, each
point after the first gets `local_speedup = previous.cycles /
point.cycles`, `local_efficiency = local_speedup / (point.threads /
previous.threads)` and `marginal_efficiency = (point.speedup -
previous.speedup) / (point.threads - previous.threads)` (the `adjOk`
relation between consecutive outputs), while the first point's three
adjacency fields stay `None`. -/
theorem compute_metrics_adjacent_metrics :
    ∀ (p : PointA7) (rest : List PointA7),
      (∀ q ∈ p :: rest, 0 < q.threads ∧ 0 < q.cycles) →
      List.Chain' (fun a c : PointA7 => a.threads < c.threads) (p :: rest) →
      ∃ os, compute_metrics (p :: rest) = .ok os ∧
        os.map (fun o => (o.threads, o.cycles)) =
          (p :: rest).map (fun q => (q.threads, q.cycles)) ∧
        (∀ o ∈ os.head?, o.local_speedup = none ∧ o.local_efficiency = none ∧
          o.marginal_efficiency = none) ∧
        List.Chain' adjOk os := by
  intro p rest hall hchain
  obtain ⟨os, hok, hmap, hhead, hadj⟩ := compute_metrics_char p rest hall hchain
  refine ⟨os, hok, ?_, hhead, hadj⟩
  have h2 := congrArg (List.map
    (fun x : ℕ × ℕ × String × ℚ × ℚ => (x.1, x.2.1))) hmap
  simpa [List.map_map, Function.comp] using h2

/-- Witness for C2 at the concrete series. -/
theorem compute_metrics_adjacent_metrics_witness :
    (∀ q ∈ exSeriesA7, 0 < q.threads ∧ 0 < q.cycles) ∧
    List.Chain' (fun a c : PointA7 => a.threads < c.threads) exSeriesA7 ∧
    ∃ os, compute_metrics exSeriesA7 = .ok os ∧
      os.map (fun o => (o.threads, o.cycles)) =
        exSeriesA7.map (fun q => (q.threads, q.cycles)) ∧
      (∀ o ∈ os.head?, o.local_speedup = none ∧ o.local_efficiency = none ∧
        o.marginal_efficiency = none) ∧
      List.Chain' adjOk os :=
  ⟨by decide, by norm_num [exSeriesA7, List.chain'_cons],
   compute_metrics_adjacent_metrics ⟨1, 1000, "t1_m16"⟩
     [⟨2, 600, "t2_m16"⟩, ⟨4, 400, "t4_m16"⟩] (by decide)
     (by norm_num [List.chain'_cons])⟩

/-- In a sorted series, two equal thread counts force an adjacent equal
pair. -/
theorem sorted_dup_adjacent {ps l1 l2 l3 : List PointA7} {u v : PointA7}
    (hs : List.Sorted (fun a c : PointA7 => a.threads ≤ c.threads) ps)
    (hd : ps = l1 ++ u :: l2 ++ v :: l3) (ht : u.threads = v.threads) :
    ∃ (k1 k2 : List PointA7) (a bpt : PointA7),
      ps = k1 ++ a :: bpt :: k2 ∧ a.threads = bpt.threads := by
  subst hd
  cases l2 with
  | nil => exact ⟨l1, l3, u, v, by simp, ht⟩
  | cons x l2' =>
    have hsub : List.Sorted (fun a c : PointA7 => a.threads ≤ c.threads)
        (u :: x :: (l2' ++ v :: l3)) :=
      (hs.sublist (by simp [List.sublist_append_right]))
    have h1 : u.threads ≤ x.threads := (List.sorted_cons.mp hsub).1 x (by simp)
    have hsub2 := (List.sorted_cons.mp hsub).2
    have h2 : x.threads ≤ v.threads := (List.sorted_cons.mp hsub2).1 v (by simp)
    have hux : u.threads = x.threads := le_antisymm h1 (by rw [ht]; exact h2)
    exact ⟨l1, l2' ++ v :: l3, u, x, by simp, hux⟩

/-- An adjacent duplicate in the thread sequence makes the loop raise. -/
theorem metricLoop_error_of_dup (b : ℚ) :
    ∀ (l : List PointA7) (prev : MetricPoint) (m1 : List ℕ) (a : ℕ) (m2 : List ℕ),
      prev.threads :: l.map PointA7.threads = m1 ++ a :: a :: m2 →
      ∃ e, metricLoop b prev l = .error e := by
  intro l
  induction l with
  | nil =>
    intro prev m1 a m2 h
    exfalso
    have hl := congrArg List.length h
    simp [List.length_append] at hl
    omega
  | cons p rest ih =>
    intro prev m1 a m2 h
    cases m1 with
    | nil =>
      injection h with ha hb
      injection hb with hb1 _
      have heq : prev.threads = p.threads := by rw [ha, hb1]
      obtain ⟨e, he⟩ := nextMetric_error_of_eq (b := b) heq
      exact ⟨e, by simp [metricLoop, he]⟩
    | cons y m1' =>
      injection h with _ h2
      cases hn : nextMetric b prev p with
      | error e => exact ⟨e, by simp [metricLoop, hn]⟩
      | ok o =>
        obtain ⟨e, he⟩ := ih o m1' a m2 (by rw [nextMetric_ok_threads hn]; exact h2)
        exact ⟨e, by simp [metricLoop, hn, he]⟩

/-- C3: a sorted series containing two points with equal thread counts
makes `compute_metrics` raise (zero thread delta in the adjacency
metrics) instead of silently producing `NaN` or infinity. -/
theorem compute_metrics_error_on_duplicate :
    ∀ (ps l1 l2 l3 : List PointA7) (u v : PointA7),
      List.Sorted (fun a c : PointA7 => a.threads ≤ c.threads) ps →
      ps = l1 ++ u :: l2 ++ v :: l3 →
      u.threads = v.threads →
      ∃ er, compute_metrics ps = .error er := by
  intro ps l1 l2 l3 u v hs hd ht
  obtain ⟨k1, k2, a, bpt, hdd, hab⟩ := sorted_dup_adjacent hs hd ht
  cases ps with
  | nil =>
    exfalso
    have hl := congrArg List.length hdd
    simp [List.length_append] at hl
    omega
  | cons p0 tl =>
    have hmapeq : p0.threads :: tl.map PointA7.threads =
        k1.map PointA7.threads ++ a.threads :: a.threads :: k2.map PointA7.threads := by
      have h := congrArg (List.map PointA7.threads) hdd
      simp only [List.map_cons, List.map_append] at h
      rw [h, hab]
    cases hf : firstMetric ((baselinePoint (p0 :: tl) p0).cycles : ℚ) p0 with
    | error e => exact ⟨e, by simp [compute_metrics, hf]⟩
    | ok o0 =>
      have ho0 := (firstMetric_ok_shape hf).1
      obtain ⟨e, he⟩ := metricLoop_error_of_dup
        ((baselinePoint (p0 :: tl) p0).cycles : ℚ) tl o0
        (k1.map PointA7.threads) a.threads (k2.map PointA7.threads)
        (by rw [ho0]; exact hmapeq)
      exact ⟨e, by simp [compute_metrics, hf, he]⟩

/-- Witness for C3 on the duplicated series. -/
theorem compute_metrics_error_on_duplicate_witness :
    List.Sorted (fun a c : PointA7 => a.threads ≤ c.threads) dupSeries ∧
    dupSeries = [] ++ (⟨2, 100, "t2_a"⟩ : PointA7) :: [] ++ (⟨2, 50, "t2_b"⟩ : PointA7) :: [] ∧
    (⟨2, 100, "t2_a"⟩ : PointA7).threads = (⟨2, 50, "t2_b"⟩ : PointA7).threads ∧
    ∃ er, compute_metrics dupSeries = .error er := by
  have hsorted : List.Sorted (fun a c : PointA7 => a.threads ≤ c.threads) dupSeries := by
    simp [dupSeries, List.sorted_cons]
  exact ⟨hsorted, rfl, rfl,
    compute_metrics_error_on_duplicate dupSeries [] [] []
      ⟨2, 100, "t2_a"⟩ ⟨2, 50, "t2_b"⟩ hsorted rfl rfl⟩

end Perf
